import Mathlib

/-!
Verification development for the LoRa telemetry logger
(`src/codigo_python_raspberry.py`).

The script reads a line-oriented stream from a serial device and turns it
into CSV rows.  The logical core consists of three pure parsing functions
(`process_data_line`, `process_lost_line`, the `startswith` dispatch in
`main`) and the session bookkeeping in `main`'s read loop (the variables
`current_csv_log`, `last_distance`, `last_lost`).

The shallow embedding below models:
  * one text line as a Lean `String` (the script decodes and strips the raw
    bytes before any of the modelled logic runs, so the input here is the
    already-stripped line);
  * wall-clock timestamps as natural numbers at the same granularity the
    script uses in file names (seconds) -- each processed line carries the
    timestamp `datetime.now()` would return for it;
  * the numeric value of a parsed distance as a rational number.  The
    distances the script compares are produced by Python `float(...)` on
    short decimal literals, which that comparison logic treats exactly like
    exact decimal arithmetic for the magnitudes involved;
  * the session identity (the CSV file the row is appended to) as the pair
    of the data that the script interpolates into the file name
    `lora_data_{distance:.2f}m_{timestamp}.csv`: the distance rounded to
    two decimal places (stored in hundredths) and the timestamp.
-/

/-! ### Python string primitives used by the script -/

/-- Splits a character list at every character satisfying `p`, keeping empty
segments, like Python `str.split(sep)` does for a one-character separator.
`splitChars p [] = [[]]`, matching `"".split(",") == [""]`. -/
def splitChars (p : Char → Bool) : List Char → List (List Char)
  | [] => [[]]
  | c :: cs =>
    let r := splitChars p cs
    if p c then [] :: r
    else
      match r with
      | [] => [[c]]
      | h :: t => (c :: h) :: t

/-- Python `line.split(sep)` for a single-character separator: splits on every
occurrence of `sep` and keeps empty fields. -/
def pySplitOn (sep : Char) (s : String) : List String :=
  (splitChars (fun c => c == sep) s.data).map String.mk

/-- Python `line.split()` with no argument: splits on runs of whitespace and
drops empty fields. -/
def pySplitWs (s : String) : List String :=
  ((splitChars Char.isWhitespace s.data).map String.mk).filter (fun t => t ≠ "")

/-- Python `s.strip()`: removes leading and trailing whitespace. -/
def pyStrip (s : String) : String :=
  String.mk (((s.data.dropWhile Char.isWhitespace).reverse.dropWhile Char.isWhitespace).reverse)

/-- Boolean test that `s` begins with the characters of `pre`, mirroring
Python `s.startswith(pre)`. -/
def listStarts : List Char → List Char → Bool
  | [], _ => true
  | _ :: _, [] => false
  | p :: ps, c :: cs => if p = c then listStarts ps cs else false

/-- Python `s.startswith(pre)` on strings. -/
def strStarts (pre s : String) : Bool :=
  listStarts pre.data s.data

/-! ### Numeric parsing

The script calls Python `float(...)` on the distance and lost-count fields
and `int(...)` on the result.  The telemetry fields are plain decimal
literals (optional sign, digits, optional fractional part); `parseFloat?`
models Python `float` on exactly that sublanguage and rejects everything
else, which is the behaviour the claims' "well-formed reading" hypotheses
rely on. -/

/-- Numeric value of a list of decimal digit characters. -/
def digitsVal (cs : List Char) : Nat :=
  cs.foldl (fun a c => 10 * a + (c.toNat - 48)) 0

/-- Parses a plain decimal literal (optional sign, integer digits, optional
`.` and fraction digits, surrounding whitespace allowed) to its exact
rational value, as Python `float(...)` does on the fields this script
receives; any other shape yields `none` (Python would raise, and the script
catches the exception). -/
def parseFloat? (s : String) : Option ℚ :=
  let cs := (pyStrip s).data
  let signBody : ℚ × List Char :=
    match cs with
    | '-' :: rest => (-1, rest)
    | '+' :: rest => (1, rest)
    | _ => (1, cs)
  match splitChars (fun c => c == '.') signBody.2 with
  | [ds] =>
    if !ds.isEmpty && ds.all Char.isDigit then
      some (signBody.1 * (digitsVal ds : ℚ))
    else none
  | [ds, fs] =>
    if (!ds.isEmpty || !fs.isEmpty) && ds.all Char.isDigit && fs.all Char.isDigit then
      some (signBody.1 * ((digitsVal ds : ℚ) + (digitsVal fs : ℚ) / (10 : ℚ) ^ fs.length))
    else none
  | _ => none

/-- Floor of a rational number, computed on the normalized fraction. -/
def floorQ (q : ℚ) : Int :=
  Int.fdiv q.num (q.den : Int)

/-- Truncation toward zero, as Python `int(...)` applied to a float. -/
def pyTrunc (q : ℚ) : Int :=
  if 0 ≤ q then floorQ q else - floorQ (-q)

/-- The script's `int(float(data["Lost"]))` with the surrounding
`try/except` that falls back to `0` when the field does not parse. -/
def parseLostCount (s : String) : Int :=
  match parseFloat? s with
  | some q => pyTrunc q
  | none => 0

/-- Rounds a rational to hundredths the way Python's `f"{x:.2f}"` renders a
float built from a short decimal literal: round half to even.  The result is
the integer number of hundredths that appears in the session file name. -/
def round2 (q : ℚ) : Int :=
  let x := 100 * q
  let n := floorQ x
  let fr := x - (n : ℚ)
  if fr > 1 / 2 then n + 1
  else if fr < 1 / 2 then n
  else if n % 2 = 0 then n else n + 1

/-! ### Data model -/

/-- One CSV row as the script builds it (the dict handed to `log_data`):
all payload fields are kept as text, the timestamp is the wall clock at
processing time. -/
structure LogRecord where
  timestamp : Nat
  event : String
  messageNumber : String
  distanceM : String
  received : String
  lost : String
  rssi : String
  snr : String
  totalPackets : String
  lossRate : String
deriving DecidableEq, Repr

/-- The information content of the session file name
`lora_data_{distance:.2f}m_{timestamp}.csv`: the distance rounded to two
decimals (in hundredths) and the session-start timestamp.  Two sessions with
equal `distCenti` and `stamp` are written to the same file. -/
structure SessionKey where
  distCenti : Int
  stamp : Nat
deriving DecidableEq, Repr

/-- The mutable state of `main`'s read loop: `current_csv_log`,
`last_distance` and `last_lost`. -/
structure DriverState where
  currentLog : Option SessionKey
  lastDistance : Option ℚ
  lastLost : Option Int
deriving DecidableEq, Repr

/-- State at program start: no file, no distance, no lost count. -/
def initState : DriverState :=
  ⟨none, none, none⟩

/-- Observable effects of processing one line: creating a session file,
appending a row to a session file, or printing the
"No CSV log file created yet; LOST event not logged to CSV." notice. -/
inductive Effect where
  | createdSession (k : SessionKey)
  | logged (k : SessionKey) (r : LogRecord)
  | noActiveSession
deriving DecidableEq, Repr

/-- Replaces the `Lost` field of a record, as the transient-zero branch's
`data["Lost"] = str(...)` assignment does. -/
def setLost (r : LogRecord) (s : String) : LogRecord :=
  ⟨r.timestamp, r.event, r.messageNumber, r.distanceM, r.received, s,
    r.rssi, r.snr, r.totalPackets, r.lossRate⟩

/-! ### The two line parsers -/

/-- The script's `process_data_line`: split the line on commas, require at
least 10 fields, keep fields 2..9 as text (field 9 stripped), and replace a
`TotalPackets` field that strips to the exact string `"0"` by the
`Received` field. -/
def process_data_line (now : Nat) (line : String) : Option LogRecord :=
  let parts := pySplitOn ',' line
  if parts.length < 10 then none
  else
    some ⟨now, "DATA", parts.getD 2 "", parts.getD 3 "", parts.getD 4 "",
      parts.getD 5 "", parts.getD 6 "", parts.getD 7 "",
      (if pyStrip (parts.getD 8 "") = "0" then parts.getD 4 "" else parts.getD 8 ""),
      pyStrip (parts.getD 9 "")⟩

/-- The script's `process_lost_line`: whitespace-split the line, take the
last token as the lost packet number (`parts[-1]`); when there is no token
the `IndexError` is caught and `None` is returned. -/
def process_lost_line (now : Nat) (line : String) : Option LogRecord :=
  match (pySplitWs line).getLast? with
  | none => none
  | some tok => some ⟨now, "LOST", tok, "", "", "", "", "", "", ""⟩

/-! ### The session state machine -/

/-- The transient-zero test of `main`:
`last_distance is not None and current_distance == 0.0 and last_distance != 0.0`. -/
def isTransientZero (st : DriverState) (cd : ℚ) : Bool :=
  match st.lastDistance with
  | none => false
  | some ld => if cd = 0 ∧ ld ≠ 0 then true else false

/-- The body of `main`'s DATA branch after the distance has been parsed to
`cd`: transient-zero suppression / lost-count update, then the session
decision (`last_distance` `None` / lower / strictly higher), then the append
to the current file if one exists. -/
def dataStep (t : Nat) (st : DriverState) (data0 : LogRecord) (cd : ℚ) :
    DriverState × List Effect :=
  let step1 : LogRecord × DriverState :=
    if isTransientZero st cd then
      (setLost data0 (toString (st.lastLost.getD 0)), st)
    else
      (data0, ⟨st.currentLog, st.lastDistance, some (parseLostCount data0.lost)⟩)
  let data1 := step1.1
  let st1 := step1.2
  let step2 : DriverState × List Effect :=
    match st1.lastDistance with
    | none =>
      (⟨some ⟨round2 cd, t⟩, some cd, st1.lastLost⟩,
        [Effect.createdSession ⟨round2 cd, t⟩])
    | some ld =>
      if cd ≤ ld ∧ cd ≠ ld then (st1, [])
      else if ld < cd then
        (⟨some ⟨round2 cd, t⟩, some cd, st1.lastLost⟩,
          [Effect.createdSession ⟨round2 cd, t⟩])
      else (st1, [])
  match step2.1.currentLog with
  | some k => (step2.1, step2.2 ++ [Effect.logged k data1])
  | none => (step2.1, step2.2)

/-- One iteration of `main`'s read loop on a nonempty decoded line `line`
carrying wall-clock timestamp `t`: the `startswith` dispatch on
"Large gap detected" / "LOST:" / "DATA," and the corresponding handling.
An empty line is skipped (`if line:`). -/
def processLine (t : Nat) (st : DriverState) (line : String) :
    DriverState × List Effect :=
  if line = "" then (st, [])
  else if strStarts "Large gap detected" line then (st, [])
  else if strStarts "LOST:" line then
    match process_lost_line t line, st.currentLog with
    | some r, some k => (st, [Effect.logged k r])
    | _, _ => (st, [Effect.noActiveSession])
  else if strStarts "DATA," line then
    match process_data_line t line with
    | none => (st, [])
    | some data0 =>
      match parseFloat? data0.distanceM with
      | none => (st, [])
      | some cd => dataStep t st data0 cd
  else (st, [])

/-- Runs the loop over a list of timestamped lines, accumulating effects in
order. -/
def runLines : DriverState → List (Nat × String) → DriverState × List Effect
  | st, [] => (st, [])
  | st, q :: rest =>
    let step := processLine q.1 st q.2
    let next := runLines step.1 rest
    (next.1, step.2 ++ next.2)

/-- The session keys created during a run, in creation order. -/
def createdKeys (effs : List Effect) : List SessionKey :=
  effs.filterMap fun e =>
    match e with
    | Effect.createdSession k => some k
    | _ => none

/-- The rows appended during a run together with the session they were
appended to, in order. -/
def loggedEntries (effs : List Effect) : List (SessionKey × LogRecord) :=
  effs.filterMap fun e =>
    match e with
    | Effect.logged k r => some (k, r)
    | _ => none

/-- The distance value `main` extracts from a line:
`float(process_data_line(line)["Distance(m)"])`, when both steps succeed. -/
def dataDistance (t : Nat) (line : String) : Option ℚ :=
  (process_data_line t line).bind fun r => parseFloat? r.distanceM

/-- A well-formed DATA reading with parsed distance `d`: the line enters the
`DATA,` branch, `process_data_line` accepts it, and the distance field
parses to `d`. -/
def wellFormedData (t : Nat) (line : String) (d : ℚ) : Prop :=
  strStarts "DATA," line = true ∧ dataDistance t line = some d

/-- Every row is appended under session key `k`. -/
def allLoggedUnder (effs : List Effect) (k : SessionKey) : Prop :=
  ∀ p ∈ loggedEntries effs, p.1 = k

/-- Monotonic use of session identities: whenever a row is appended under
key `k`, `k` is not one of the identities that were already superseded at
that point (i.e. not a non-final element of the creation list so far). -/
def logNeverReusesKey (effs : List Effect) : Prop :=
  ∀ pre k r post, effs = pre ++ Effect.logged k r :: post →
    k ∉ (createdKeys pre).dropLast

/-- The classifier rejects a LOST line with no whitespace-delimited token. -/
def lostNoToken (now : Nat) : Prop :=
  ∀ l, pySplitWs l = [] → process_lost_line now l = none

/-! ### Dispatch lemmas: which branch of the read loop a line takes -/

theorem listStarts_head_ne {a b : Char} {ps cs : List Char} (h : a ≠ b) :
    listStarts (a :: ps) (b :: cs) = false := by
  simp [listStarts, h]

theorem listStarts_head2_ne {a b c d : Char} {ps cs : List Char} (h : b ≠ d) :
    listStarts (a :: b :: ps) (c :: d :: cs) = false := by
  by_cases hac : a = c <;> simp [listStarts, hac, h]

theorem listStarts_true_iff (p : List Char) : ∀ s, listStarts p s = true ↔ ∃ u, s = p ++ u := by
  induction p with
  | nil => intro s; simp [listStarts]
  | cons a ps ih =>
    intro s
    cases s with
    | nil => simp [listStarts]
    | cons c cs =>
      by_cases hac : a = c
      · subst hac
        simp [listStarts, ih cs]
      · simp [listStarts, hac, Ne.symm hac]

theorem strStarts_data_shape {line : String} (h : strStarts "DATA," line = true) :
    ∃ u, line.data = 'D' :: 'A' :: 'T' :: 'A' :: ',' :: u := by
  have := (listStarts_true_iff "DATA,".data line.data).mp h
  simpa using this

theorem strStarts_lost_shape {line : String} (h : strStarts "LOST:" line = true) :
    ∃ u, line.data = 'L' :: 'O' :: 'S' :: 'T' :: ':' :: u := by
  have := (listStarts_true_iff "LOST:".data line.data).mp h
  simpa using this

theorem ne_empty_of_gap {line : String} (h : strStarts "Large gap detected" line = true) :
    line ≠ "" := by
  intro he
  rw [he] at h
  exact absurd h (by decide)

theorem ne_empty_of_lost {line : String} (h : strStarts "LOST:" line = true) :
    line ≠ "" := by
  intro he
  rw [he] at h
  exact absurd h (by decide)

theorem ne_empty_of_data {line : String} (h : strStarts "DATA," line = true) :
    line ≠ "" := by
  intro he
  rw [he] at h
  exact absurd h (by decide)

theorem not_gap_of_lost {line : String} (h : strStarts "LOST:" line = true) :
    strStarts "Large gap detected" line = false := by
  obtain ⟨u, hu⟩ := strStarts_lost_shape h
  rw [strStarts, hu]
  exact listStarts_head2_ne (by decide)

theorem not_gap_of_data {line : String} (h : strStarts "DATA," line = true) :
    strStarts "Large gap detected" line = false := by
  obtain ⟨u, hu⟩ := strStarts_data_shape h
  rw [strStarts, hu]
  exact listStarts_head_ne (by decide)

theorem not_lost_of_data {line : String} (h : strStarts "DATA," line = true) :
    strStarts "LOST:" line = false := by
  obtain ⟨u, hu⟩ := strStarts_data_shape h
  rw [strStarts, hu]
  exact listStarts_head_ne (by decide)

/-- An ignored gap-diagnostic line takes the first branch: no effect at all. -/
theorem processLine_gap {t : Nat} {st : DriverState} {line : String}
    (h : strStarts "Large gap detected" line = true) :
    processLine t st line = (st, []) := by
  unfold processLine
  rw [if_neg (ne_empty_of_gap h), if_pos h]

/-- A LOST line takes the LOST branch of the loop. -/
theorem processLine_lost_eq {t : Nat} {st : DriverState} {line : String}
    (h : strStarts "LOST:" line = true) :
    processLine t st line =
      (match process_lost_line t line, st.currentLog with
        | some r, some k => (st, [Effect.logged k r])
        | _, _ => (st, [Effect.noActiveSession])) := by
  unfold processLine
  rw [if_neg (ne_empty_of_lost h), if_neg (by simp [not_gap_of_lost h]), if_pos h]

/-- A parsed DATA line with a parsed distance runs the session step. -/
theorem processLine_data_eq {t : Nat} {st : DriverState} {line : String} {r : LogRecord} {cd : ℚ}
    (hD : strStarts "DATA," line = true)
    (hr : process_data_line t line = some r)
    (hcd : parseFloat? r.distanceM = some cd) :
    processLine t st line = dataStep t st r cd := by
  unfold processLine
  rw [if_neg (ne_empty_of_data hD), if_neg (by simp [not_gap_of_data hD]),
    if_neg (by simp [not_lost_of_data hD]), if_pos hD, hr]
  simp [hcd]

/-! ### Behaviour of the session step -/

/-- First valid reading: no prior distance, so a session keyed on the
current distance and timestamp is created, `last_distance` and `last_lost`
are set, and the row goes to the new file unchanged. -/
theorem dataStep_first {t : Nat} {st : DriverState} {r : LogRecord} {cd : ℚ}
    (h : st.lastDistance = none) :
    dataStep t st r cd =
      (⟨some ⟨round2 cd, t⟩, some cd, some (parseLostCount r.lost)⟩,
        [Effect.createdSession ⟨round2 cd, t⟩, Effect.logged ⟨round2 cd, t⟩ r]) := by
  simp [dataStep, isTransientZero, h]

/-- Strictly higher distance: a new session keyed on the current distance
and timestamp is created and `last_distance` is updated. -/
theorem dataStep_up {t : Nat} {st : DriverState} {r : LogRecord} {cd ld : ℚ}
    (h : st.lastDistance = some ld) (hlt : ld < cd) :
    (dataStep t st r cd).1.currentLog = some ⟨round2 cd, t⟩ ∧
    (dataStep t st r cd).1.lastDistance = some cd ∧
    createdKeys (dataStep t st r cd).2 = [⟨round2 cd, t⟩] := by
  have hno : ¬(cd ≤ ld ∧ cd ≠ ld) := by
    rintro ⟨h1, -⟩
    exact absurd hlt (not_lt.mpr h1)
  by_cases hz : isTransientZero st cd = true
  · simp [dataStep, hz, h, hno, hlt, createdKeys]
  · simp only [Bool.not_eq_true] at hz
    simp [dataStep, hz, h, hno, hlt, createdKeys]

/-- Distance at most the recorded one: no rotation, `last_distance` and the
current session are unchanged, and the row (if a session exists) goes to the
current session. -/
theorem dataStep_le {t : Nat} {st : DriverState} {r : LogRecord} {cd ld : ℚ}
    (h : st.lastDistance = some ld) (hle : cd ≤ ld) :
    (dataStep t st r cd).1.currentLog = st.currentLog ∧
    (dataStep t st r cd).1.lastDistance = st.lastDistance ∧
    createdKeys (dataStep t st r cd).2 = [] ∧
    ∀ p ∈ loggedEntries (dataStep t st r cd).2, st.currentLog = some p.1 := by
  by_cases hz : cd = 0 ∧ ld ≠ 0
  · obtain ⟨hc0, hld0⟩ := hz
    subst hc0
    have hcond : (0 : ℚ) ≤ ld ∧ (0 : ℚ) ≠ ld := ⟨hle, fun he => hld0 he.symm⟩
    cases hcl : st.currentLog with
    | none =>
      simp [dataStep, isTransientZero, h, hld0, hcond, hcl, createdKeys, loggedEntries]
    | some k0 =>
      simp [dataStep, isTransientZero, h, hld0, hcond, hcl, createdKeys, loggedEntries]
  · by_cases heq : cd = ld
    · subst heq
      cases hcl : st.currentLog with
      | none =>
        simp [dataStep, isTransientZero, h, hz, hcl, createdKeys, loggedEntries]
      | some k0 =>
        simp [dataStep, isTransientZero, h, hz, hcl, createdKeys, loggedEntries]
    · have hcond : cd ≤ ld ∧ cd ≠ ld := ⟨hle, heq⟩
      cases hcl : st.currentLog with
      | none =>
        simp [dataStep, isTransientZero, h, hz, hcond, hcl, createdKeys, loggedEntries]
      | some k0 =>
        simp [dataStep, isTransientZero, h, hz, hcond, hcl, createdKeys, loggedEntries]

/-- Transient zero after a positive recorded distance: the state is entirely
unchanged and the row is appended to the current session with its `Lost`
field overridden by the last valid lost count (default 0). -/
theorem dataStep_transient {t : Nat} {st : DriverState} {r : LogRecord} {ld : ℚ} {k : SessionKey}
    (h : st.lastDistance = some ld) (hpos : 0 < ld) (hk : st.currentLog = some k) :
    dataStep t st r 0 = (st, [Effect.logged k (setLost r (toString (st.lastLost.getD 0)))]) := by
  have hz : isTransientZero st 0 = true := by
    simp [isTransientZero, h, ne_of_gt hpos]
  have hcase : (0 : ℚ) ≤ ld ∧ (0 : ℚ) ≠ ld := ⟨le_of_lt hpos, (ne_of_gt hpos).symm⟩
  simp [dataStep, hz, h, hcase, hk]

/-! ### Tokenisation facts for LOST lines -/

theorem splitChars_ne_nil {p : Char → Bool} : ∀ cs : List Char, splitChars p cs ≠ [] := by
  intro cs
  cases cs with
  | nil => simp [splitChars]
  | cons a as =>
    by_cases hpa : p a = true
    · simp [splitChars, hpa]
    · simp only [splitChars, hpa]
      cases hre : splitChars p as with
      | nil => simp
      | cons h0 t0 => simp

theorem splitChars_all_of_empty {p : Char → Bool} :
    ∀ {cs : List Char}, (∀ l ∈ splitChars p cs, l = []) → ∀ c ∈ cs, p c = true := by
  intro cs
  induction cs with
  | nil => intro _ c hc; cases hc
  | cons a as ih =>
    intro hall c hc
    by_cases hpa : p a = true
    · have hshape : splitChars p (a :: as) = [] :: splitChars p as := by
        simp [splitChars, hpa]
      have hrest : ∀ l ∈ splitChars p as, l = [] := by
        intro l hl
        exact hall l (by rw [hshape]; exact List.mem_cons_of_mem _ hl)
      rcases List.mem_cons.mp hc with rfl | hc'
      · exact hpa
      · exact ih hrest c hc'
    · obtain ⟨h0, t0, hsp⟩ : ∃ h0 t0, splitChars p as = h0 :: t0 := by
        cases hre : splitChars p as with
        | nil => exact absurd hre (splitChars_ne_nil as)
        | cons h0 t0 => exact ⟨h0, t0, rfl⟩
      have hshape : splitChars p (a :: as) = (a :: h0) :: t0 := by
        simp [splitChars, hpa, hsp]
      have hcon := hall (a :: h0) (by rw [hshape]; exact List.mem_cons_self _ _)
      exact absurd hcon (List.cons_ne_nil _ _)

/-- A line that starts with `LOST:` always whitespace-splits into at least
one token, and `process_lost_line` returns the LOST row carrying the last
token. -/
theorem process_lost_line_of_starts {now : Nat} {line : String}
    (h : strStarts "LOST:" line = true) :
    pySplitWs line ≠ [] ∧
    process_lost_line now line =
      some ⟨now, "LOST", ((pySplitWs line).getLast?).getD "",
        "", "", "", "", "", "", ""⟩ := by
  obtain ⟨u, hu⟩ := strStarts_lost_shape h
  have hne : pySplitWs line ≠ [] := by
    intro he
    have hall : ∀ x ∈ (splitChars Char.isWhitespace line.data).map String.mk, x = "" := by
      intro x hx
      by_contra hxne
      have hmem : x ∈ pySplitWs line := by
        unfold pySplitWs
        exact List.mem_filter.mpr ⟨hx, by simpa using hxne⟩
      rw [he] at hmem
      cases hmem
    have hall2 : ∀ l ∈ splitChars Char.isWhitespace line.data, l = [] := by
      intro l hl
      have hmk := hall (String.mk l) (List.mem_map_of_mem _ hl)
      have := congrArg String.data hmk
      simpa using this
    have hws := splitChars_all_of_empty hall2 'L' (by rw [hu]; exact List.mem_cons_self _ _)
    exact absurd hws (by decide)
  refine ⟨hne, ?_⟩
  unfold process_lost_line
  rw [List.getLast?_eq_getLast _ hne]
  simp

set_option maxRecDepth 40000

/-! ### Claim theorems: single-step properties -/

/-- C8: a line beginning with the gap-diagnostic sentinel
"Large gap detected" produces no persisted record and leaves
`lastLostCount`, `lastDistance` and the current session identity (the whole
loop state) unchanged. -/
theorem C8_gap_line_no_effect (t : Nat) (st : DriverState) (line : String)
    (h : strStarts "Large gap detected" line = true) :
    processLine t st line = (st, []) :=
  processLine_gap h

theorem C8_gap_line_no_effect_witness :
    strStarts "Large gap detected" "Large gap detected: 42 packets" = true ∧
    processLine 7 ⟨some ⟨1000, 1⟩, some 10, some 3⟩ "Large gap detected: 42 packets" =
      (⟨some ⟨1000, 1⟩, some 10, some 3⟩, []) :=
  ⟨by decide, C8_gap_line_no_effect 7 ⟨some ⟨1000, 1⟩, some 10, some 3⟩
    "Large gap detected: 42 packets" (by decide)⟩

/-- C9: for every line beginning with "LOST:", the classifier extracts the
trailing whitespace-delimited token as the lost-packet identifier and
returns the LOST row carrying it (such a token always exists for these
lines); on any line with no whitespace-delimited token at all it returns
`none` instead. -/
theorem C9_lost_classifier (now : Nat) (line : String)
    (h : strStarts "LOST:" line = true) :
    pySplitWs line ≠ [] ∧
    process_lost_line now line =
      some ⟨now, "LOST", ((pySplitWs line).getLast?).getD "",
        "", "", "", "", "", "", ""⟩ ∧
    lostNoToken now := by
  obtain ⟨h1, h2⟩ := @process_lost_line_of_starts now line h
  refine ⟨h1, h2, ?_⟩
  intro l hl
  unfold process_lost_line
  rw [hl]
  rfl

theorem C9_lost_classifier_witness :
    strStarts "LOST:" "LOST: Packet 9" = true ∧
    (pySplitWs "LOST: Packet 9" ≠ [] ∧
      process_lost_line 3 "LOST: Packet 9" =
        some ⟨3, "LOST", ((pySplitWs "LOST: Packet 9").getLast?).getD "",
          "", "", "", "", "", "", ""⟩ ∧
      lostNoToken 3) :=
  ⟨by decide, C9_lost_classifier 3 "LOST: Packet 9" (by decide)⟩

/-- C5: a LOST event arriving when no session has been initialized is
dropped with the "no active session" notice and is not buffered (the state
is unchanged and nothing is appended); a LOST event arriving when a session
is open is appended to the currently open session. -/
theorem C5_lost_routing (t : Nat) (st : DriverState) (line : String)
    (h : strStarts "LOST:" line = true) :
    (st.currentLog = none → processLine t st line = (st, [Effect.noActiveSession])) ∧
    (∀ k, st.currentLog = some k →
      processLine t st line =
        (st, [Effect.logged k ⟨t, "LOST", ((pySplitWs line).getLast?).getD "",
          "", "", "", "", "", "", ""⟩])) := by
  obtain ⟨-, h2⟩ := @process_lost_line_of_starts t line h
  rw [processLine_lost_eq h]
  constructor
  · intro hcl
    rw [h2, hcl]
  · intro k hcl
    rw [h2, hcl]

theorem C5_lost_routing_witness :
    strStarts "LOST:" "LOST: Packet 9" = true ∧
    initState.currentLog = none ∧
    processLine 3 initState "LOST: Packet 9" = (initState, [Effect.noActiveSession]) :=
  ⟨by decide, rfl, (C5_lost_routing 3 initState "LOST: Packet 9" (by decide)).1 rfl⟩

/-- C3: a well-formed DATA reading whose distance parses to exactly 0 while
the recorded `lastDistance` is positive leaves the whole loop state
unchanged (in particular `lastDistance` and the session identity), and the
row is appended to the current session with its `Lost` field replaced by
the last recorded valid lost count (0 if none); all other fields, including
the distance text, are persisted as read. -/
theorem C3_transient_zero (t : Nat) (st : DriverState) (line : String)
    (ld : ℚ) (k : SessionKey) (r₀ : LogRecord)
    (hD : strStarts "DATA," line = true)
    (hr : process_data_line t line = some r₀)
    (hdist : parseFloat? r₀.distanceM = some 0)
    (hld : st.lastDistance = some ld) (hpos : 0 < ld)
    (hk : st.currentLog = some k) :
    processLine t st line =
      (st, [Effect.logged k (setLost r₀ (toString (st.lastLost.getD 0)))]) := by
  rw [processLine_data_eq hD hr hdist]
  exact dataStep_transient hld hpos hk

theorem C3_transient_zero_witness :
    (0 : ℚ) < 10 ∧
    processLine 9 ⟨some ⟨1000, 1⟩, some 10, some 3⟩ "DATA,0,5,0.0,21,9,-50,7.5,100,9.0" =
      (⟨some ⟨1000, 1⟩, some 10, some 3⟩,
        [Effect.logged ⟨1000, 1⟩
          (setLost ⟨9, "DATA", "5", "0.0", "21", "9", "-50", "7.5", "100", "9.0"⟩
            (toString (((some 3 : Option Int)).getD 0)))]) :=
  ⟨by norm_num,
    C3_transient_zero 9 ⟨some ⟨1000, 1⟩, some 10, some 3⟩ "DATA,0,5,0.0,21,9,-50,7.5,100,9.0"
      10 ⟨1000, 1⟩ ⟨9, "DATA", "5", "0.0", "21", "9", "-50", "7.5", "100", "9.0"⟩
      (by decide) (by decide) (by with_unfolding_all decide) rfl (by norm_num) rfl⟩

/-- C10: when `lastDistance` is unset, a well-formed DATA reading whose
distance parses to exactly 0 is treated as a first valid reading: it opens
a session keyed on distance 0.00 and the current timestamp, sets
`lastDistance` to 0, updates `lastLost` from the reading, and the row is
persisted without any transient-zero override of its `Lost` field. -/
theorem C10_first_reading_zero (t : Nat) (st : DriverState) (line : String) (r₀ : LogRecord)
    (hD : strStarts "DATA," line = true)
    (hr : process_data_line t line = some r₀)
    (hdist : parseFloat? r₀.distanceM = some 0)
    (h0 : st.lastDistance = none) :
    processLine t st line =
      (⟨some ⟨0, t⟩, some 0, some (parseLostCount r₀.lost)⟩,
        [Effect.createdSession ⟨0, t⟩, Effect.logged ⟨0, t⟩ r₀]) := by
  rw [processLine_data_eq hD hr hdist, dataStep_first h0,
    show round2 0 = 0 from by with_unfolding_all decide]

theorem C10_first_reading_zero_witness :
    initState.lastDistance = none ∧
    processLine 4 initState "DATA,0,1,0.0,5,2,-50,7.5,100,2.0" =
      (⟨some ⟨0, 4⟩, some 0, some (parseLostCount "2")⟩,
        [Effect.createdSession ⟨0, 4⟩,
          Effect.logged ⟨0, 4⟩ ⟨4, "DATA", "1", "0.0", "5", "2", "-50", "7.5", "100", "2.0"⟩]) :=
  ⟨rfl,
    C10_first_reading_zero 4 initState "DATA,0,1,0.0,5,2,-50,7.5,100,2.0"
      ⟨4, "DATA", "1", "0.0", "5", "2", "-50", "7.5", "100", "2.0"⟩
      (by decide) (by decide) (by with_unfolding_all decide) rfl⟩

/-! ### TotalPackets normalisation (C6) and the four-reading scenario (C4) -/

/-- Decimal integer parsing (optional sign, optional surrounding
whitespace), the natural reading of "the `totalPackets` field parses to
exactly 0"; in particular `"00"` parses to `0`. -/
def parseInt? (s : String) : Option Int :=
  let cs := (pyStrip s).data
  let signBody : Int × List Char :=
    match cs with
    | '-' :: rest => (-1, rest)
    | '+' :: rest => (1, rest)
    | _ => (1, cs)
  if !signBody.2.isEmpty && signBody.2.all Char.isDigit then
    some (signBody.1 * (digitsVal signBody.2 : Int))
  else none

/-- C6 (counterexample to the claim as stated): the DATA line below carries
`TotalPackets = "00"`, which parses to exactly 0, yet the persisted
`TotalPackets` stays `"00"` and is not replaced by the `Received` value
`"7"`: the code compares the stripped text with the literal string "0", not
the parsed number. -/
theorem C6_counterexample :
    parseInt? "00" = some 0 ∧
    process_data_line 0 "DATA,0,1,10.0,7,2,-50,7.5,00,2.0" =
      some ⟨0, "DATA", "1", "10.0", "7", "2", "-50", "7.5", "00", "2.0"⟩ ∧
    ("00" : String) ≠ ("7" : String) := by
  refine ⟨by decide, by decide, by decide⟩

/-- C6 (amended): the substitution happens exactly when the raw
`TotalPackets` field (comma field 8) equals the string "0" after stripping
whitespace; then the persisted `TotalPackets` equals the `Received` field,
and for any other value the field passes through unchanged. -/
theorem C6_totalPackets_substitution (now : Nat) (line : String) (r : LogRecord)
    (h : process_data_line now line = some r) :
    r.received = (pySplitOn ',' line).getD 4 "" ∧
    (pyStrip ((pySplitOn ',' line).getD 8 "") = "0" →
      r.totalPackets = (pySplitOn ',' line).getD 4 "") ∧
    (pyStrip ((pySplitOn ',' line).getD 8 "") ≠ "0" →
      r.totalPackets = (pySplitOn ',' line).getD 8 "") := by
  unfold process_data_line at h
  by_cases hlen : (pySplitOn ',' line).length < 10
  · rw [if_pos hlen] at h
    cases h
  · rw [if_neg hlen] at h
    injection h with h
    subst h
    refine ⟨rfl, fun h8 => ?_, fun h8 => ?_⟩
    · exact if_pos h8
    · exact if_neg h8

theorem C6_totalPackets_substitution_witness :
    process_data_line 0 "DATA,0,1,10.0,7,2,-50,7.5,0,2.0" =
      some ⟨0, "DATA", "1", "10.0", "7", "2", "-50", "7.5", "7", "2.0"⟩ ∧
    pyStrip ((pySplitOn ',' "DATA,0,1,10.0,7,2,-50,7.5,0,2.0").getD 8 "") = "0" ∧
    (⟨0, "DATA", "1", "10.0", "7", "2", "-50", "7.5", "7", "2.0"⟩ : LogRecord).totalPackets =
      (pySplitOn ',' "DATA,0,1,10.0,7,2,-50,7.5,0,2.0").getD 4 "" :=
  ⟨by decide, by decide,
    (C6_totalPackets_substitution 0 "DATA,0,1,10.0,7,2,-50,7.5,0,2.0"
      ⟨0, "DATA", "1", "10.0", "7", "2", "-50", "7.5", "7", "2.0"⟩ (by decide)).2.1 (by decide)⟩

/-- C4: processing the readings with distances 10.0, 10.0, 0.0, 15.0 from
the empty initial state creates exactly two session identities, keyed on
10.00 m and 15.00 m at their respective timestamps; every one of the first
three rows (including the transient 0.0 row) is appended to the 10.0
session, the 0.0 row's `Lost` field carries the value "3" recorded by the
preceding 10.0 reading, and the 15.0 row opens and lands in the second
session.  The conjuncts about `dataDistance` pin down the parsed distances
of the four lines. -/
theorem C4_two_sessions_scenario :
    dataDistance 1 "DATA,0,1,10.0,10,1,-50,7.5,100,1.0" = some 10 ∧
    dataDistance 2 "DATA,0,2,10.0,20,3,-50,7.5,100,3.0" = some 10 ∧
    dataDistance 3 "DATA,0,3,0.0,21,9,-50,7.5,100,9.0" = some 0 ∧
    dataDistance 4 "DATA,0,4,15.0,30,4,-50,7.5,100,4.0" = some 15 ∧
    createdKeys (runLines initState
        [(1, "DATA,0,1,10.0,10,1,-50,7.5,100,1.0"),
          (2, "DATA,0,2,10.0,20,3,-50,7.5,100,3.0"),
          (3, "DATA,0,3,0.0,21,9,-50,7.5,100,9.0"),
          (4, "DATA,0,4,15.0,30,4,-50,7.5,100,4.0")]).2 = [⟨1000, 1⟩, ⟨1500, 4⟩] ∧
    (loggedEntries (runLines initState
        [(1, "DATA,0,1,10.0,10,1,-50,7.5,100,1.0"),
          (2, "DATA,0,2,10.0,20,3,-50,7.5,100,3.0"),
          (3, "DATA,0,3,0.0,21,9,-50,7.5,100,9.0"),
          (4, "DATA,0,4,15.0,30,4,-50,7.5,100,4.0")]).2).map
        (fun p => (p.1, p.2.distanceM, p.2.lost)) =
      [(⟨1000, 1⟩, "10.0", "1"), (⟨1000, 1⟩, "10.0", "3"),
        (⟨1000, 1⟩, "0.0", "3"), (⟨1500, 4⟩, "15.0", "4")] := by
  refine ⟨?_, ?_, ?_, ?_, ?_, ?_⟩ <;> with_unfolding_all decide

/-! ### Run-level helper lemmas -/

theorem createdKeys_append (a b : List Effect) :
    createdKeys (a ++ b) = createdKeys a ++ createdKeys b :=
  List.filterMap_append _ _ _

theorem loggedEntries_append (a b : List Effect) :
    loggedEntries (a ++ b) = loggedEntries a ++ loggedEntries b :=
  List.filterMap_append _ _ _

theorem runLines_cons_eff (st : DriverState) (q : Nat × String) (rest : List (Nat × String)) :
    (runLines st (q :: rest)).2 =
      (processLine q.1 st q.2).2 ++ (runLines (processLine q.1 st q.2).1 rest).2 :=
  rfl

theorem runLines_cons_state (st : DriverState) (q : Nat × String) (rest : List (Nat × String)) :
    (runLines st (q :: rest)).1 = (runLines (processLine q.1 st q.2).1 rest).1 :=
  rfl

theorem getLast?_append_single {α : Type} (l : List α) (a : α) :
    (l ++ [a]).getLast? = some a := by
  induction l with
  | nil => rfl
  | cons b l ih =>
    cases l with
    | nil => rfl
    | cons c l2 =>
      rw [List.cons_append, List.cons_append, List.getLast?_cons_cons]
      exact ih

/-- Unpacks a well-formed DATA reading into the parsed row and distance. -/
theorem wellFormedData_elim {t : Nat} {line : String} {d : ℚ} (h : wellFormedData t line d) :
    ∃ r, process_data_line t line = some r ∧ parseFloat? r.distanceM = some d := by
  obtain ⟨-, h2⟩ := h
  exact Option.bind_eq_some.mp h2

/-- Shape of one session step: either nothing is emitted and the session is
unchanged, or one row is appended to the existing session, or a session is
created (stamped with the line's timestamp) and the row appended to it. -/
theorem dataStep_shape (t : Nat) (st : DriverState) (r : LogRecord) (cd : ℚ) :
    ((dataStep t st r cd).2 = [] ∧ (dataStep t st r cd).1.currentLog = st.currentLog) ∨
    (∃ k d1, (dataStep t st r cd).2 = [Effect.logged k d1] ∧ st.currentLog = some k ∧
      (dataStep t st r cd).1.currentLog = some k) ∨
    (∃ k d1, (dataStep t st r cd).2 = [Effect.createdSession k, Effect.logged k d1] ∧
      (dataStep t st r cd).1.currentLog = some k ∧ k.stamp = t) := by
  by_cases hz : isTransientZero st cd = true
  · cases hld : st.lastDistance with
    | none =>
      refine Or.inr (Or.inr ⟨⟨round2 cd, t⟩, setLost r (toString (st.lastLost.getD 0)), ?_, ?_, rfl⟩) <;>
        simp [dataStep, hz, hld]
    | some ld =>
      by_cases hc1 : cd ≤ ld ∧ cd ≠ ld
      · cases hcl : st.currentLog with
        | none => exact Or.inl (by simp [dataStep, hz, hld, hc1, hcl])
        | some k =>
          refine Or.inr (Or.inl ⟨k, setLost r (toString (st.lastLost.getD 0)), ?_, rfl, ?_⟩) <;>
            simp [dataStep, hz, hld, hc1, hcl]
      · by_cases hc2 : ld < cd
        · refine Or.inr (Or.inr ⟨⟨round2 cd, t⟩, setLost r (toString (st.lastLost.getD 0)), ?_, ?_, rfl⟩) <;>
            simp [dataStep, hz, hld, hc1, hc2]
        · cases hcl : st.currentLog with
          | none => exact Or.inl (by simp [dataStep, hz, hld, hc1, hc2, hcl])
          | some k =>
            refine Or.inr (Or.inl ⟨k, setLost r (toString (st.lastLost.getD 0)), ?_, rfl, ?_⟩) <;>
              simp [dataStep, hz, hld, hc1, hc2, hcl]
  · simp only [Bool.not_eq_true] at hz
    cases hld : st.lastDistance with
    | none =>
      refine Or.inr (Or.inr ⟨⟨round2 cd, t⟩, r, ?_, ?_, rfl⟩) <;>
        simp [dataStep, hz, hld]
    | some ld =>
      by_cases hc1 : cd ≤ ld ∧ cd ≠ ld
      · cases hcl : st.currentLog with
        | none => exact Or.inl (by simp [dataStep, hz, hld, hc1, hcl])
        | some k =>
          refine Or.inr (Or.inl ⟨k, r, ?_, rfl, ?_⟩) <;>
            simp [dataStep, hz, hld, hc1, hcl]
      · by_cases hc2 : ld < cd
        · refine Or.inr (Or.inr ⟨⟨round2 cd, t⟩, r, ?_, ?_, rfl⟩) <;>
            simp [dataStep, hz, hld, hc1, hc2]
        · cases hcl : st.currentLog with
          | none => exact Or.inl (by simp [dataStep, hz, hld, hc1, hc2, hcl])
          | some k =>
            refine Or.inr (Or.inl ⟨k, r, ?_, rfl, ?_⟩) <;>
              simp [dataStep, hz, hld, hc1, hc2, hcl]

/-- Shape of one loop iteration on an arbitrary line: no effect (line
ignored, empty, malformed, or unparseable); the "no active session" notice
with the state unchanged; one row appended to the current session; or a
session creation (stamped with the line's timestamp) followed by the row
appended to it. -/
theorem processLine_shape (t : Nat) (st : DriverState) (line : String) :
    ((processLine t st line).2 = [] ∧ (processLine t st line).1.currentLog = st.currentLog) ∨
    ((processLine t st line).2 = [Effect.noActiveSession] ∧ (processLine t st line).1 = st) ∨
    (∃ k d1, (processLine t st line).2 = [Effect.logged k d1] ∧ st.currentLog = some k ∧
      (processLine t st line).1.currentLog = some k) ∨
    (∃ k d1, (processLine t st line).2 = [Effect.createdSession k, Effect.logged k d1] ∧
      (processLine t st line).1.currentLog = some k ∧ k.stamp = t) := by
  by_cases he : line = ""
  · exact Or.inl (by simp [processLine, he])
  · by_cases hg : strStarts "Large gap detected" line = true
    · exact Or.inl (by simp [processLine_gap hg])
    · by_cases hl : strStarts "LOST:" line = true
      · rw [processLine_lost_eq hl]
        cases hpl : process_lost_line t line with
        | none =>
          cases hcl : st.currentLog with
          | none => exact Or.inr (Or.inl ⟨rfl, rfl⟩)
          | some k => exact Or.inr (Or.inl ⟨rfl, rfl⟩)
        | some rr =>
          cases hcl : st.currentLog with
          | none => exact Or.inr (Or.inl ⟨rfl, rfl⟩)
          | some k => exact Or.inr (Or.inr (Or.inl ⟨k, rr, rfl, rfl, hcl⟩))
      · by_cases hd : strStarts "DATA," line = true
        · cases hr : process_data_line t line with
          | none => exact Or.inl (by simp [processLine, he, hg, hl, hd, hr])
          | some r0 =>
            cases hcd : parseFloat? r0.distanceM with
            | none => exact Or.inl (by simp [processLine, he, hg, hl, hd, hr, hcd])
            | some cd =>
              rw [@processLine_data_eq t st line r0 cd hd hr hcd]
              rcases dataStep_shape t st r0 cd with h | h | h
              · exact Or.inl h
              · exact Or.inr (Or.inr (Or.inl h))
              · exact Or.inr (Or.inr (Or.inr h))
        · exact Or.inl (by simp [processLine, he, hg, hl, hd])

/-- Every appended row goes to the most recently created session: if the
effect trace splits just before a `logged` effect, the key of that effect is
the last session key created so far (counting the keys `seen` created
before this run, with the invariant that the current file is the last of
them). -/
theorem runLines_logged_key :
    ∀ (inputs : List (Nat × String)) (st : DriverState) (seen : List SessionKey),
      st.currentLog = seen.getLast? →
      ∀ pre k rr post, (runLines st inputs).2 = pre ++ Effect.logged k rr :: post →
        (seen ++ createdKeys pre).getLast? = some k := by
  intro inputs
  induction inputs with
  | nil =>
    intro st seen hinv pre k rr post h
    simp [runLines] at h
  | cons q rest ih =>
    intro st seen hinv pre k rr post h
    rw [runLines_cons_eff] at h
    rcases processLine_shape q.1 st q.2 with ⟨h1, h2⟩ | ⟨h1, h2⟩ | ⟨k0, d1, h1, h2, h3⟩ | ⟨k0, d1, h1, h2, h3⟩
    · rw [h1, List.nil_append] at h
      exact ih _ seen (h2.trans hinv) pre k rr post h
    · rw [h1] at h
      cases pre with
      | nil => simp at h
      | cons e pre' =>
        rw [List.cons_append] at h
        injection h with he h
        have hrec := ih _ seen (by rw [h2]; exact hinv) pre' k rr post h
        rw [← he]
        exact hrec
    · rw [h1] at h
      cases pre with
      | nil =>
        rw [List.nil_append] at h
        injection h with hhead h
        injection hhead with hk hd
        subst hk
        have : (seen ++ createdKeys ([] : List Effect)).getLast? = seen.getLast? := by
          simp [createdKeys]
        rw [this, ← hinv]
        exact h2
      | cons e pre' =>
        rw [List.cons_append] at h
        injection h with he h
        have hrec := ih _ seen (h3.trans (h2.symm.trans hinv)) pre' k rr post h
        rw [← he]
        exact hrec
    · rw [h1] at h
      cases pre with
      | nil =>
        rw [List.nil_append] at h
        injection h with hhead h
        exact absurd hhead (by simp)
      | cons e pre' =>
        rw [List.cons_append] at h
        injection h with he h
        subst he
        cases pre' with
        | nil =>
          injection h with hhead h
          injection hhead with hk hd
          subst hk
          rw [show seen ++ createdKeys [Effect.createdSession k0] = seen ++ [k0] from rfl]
          exact getLast?_append_single seen k0
        | cons e2 pre'' =>
          injection h with he2 h
          subst he2
          have hrec := ih _ (seen ++ [k0]) (by rw [h2, getLast?_append_single]) pre'' k rr post h
          rw [show seen ++ createdKeys (Effect.createdSession k0 :: Effect.logged k0 d1 :: pre'') =
            (seen ++ [k0]) ++ createdKeys pre'' from by simp [createdKeys]]
          exact hrec

/-- The timestamps of the created session keys form a sublist of the
timestamps of the processed lines: at most one session per line, stamped
with that line's wall-clock timestamp. -/
theorem createdKeys_stamps_sublist :
    ∀ (inputs : List (Nat × String)) (st : DriverState),
      ((createdKeys (runLines st inputs).2).map SessionKey.stamp).Sublist
        (inputs.map Prod.fst) := by
  intro inputs
  induction inputs with
  | nil => intro st; simp [runLines, createdKeys]
  | cons q rest ih =>
    intro st
    rw [runLines_cons_eff, createdKeys_append, List.map_append, List.map_cons]
    rcases processLine_shape q.1 st q.2 with ⟨h1, -⟩ | ⟨h1, -⟩ | ⟨k0, d1, h1, -, -⟩ | ⟨k0, d1, h1, -, h3⟩
    · rw [h1]
      exact List.Sublist.cons _ (ih _)
    · rw [h1]
      exact List.Sublist.cons _ (ih _)
    · rw [h1]
      exact List.Sublist.cons _ (ih _)
    · rw [h1]
      rw [show createdKeys [Effect.createdSession k0, Effect.logged k0 d1] = [k0] from rfl,
        List.map_singleton, h3, List.singleton_append]
      exact List.Sublist.cons₂ _ (ih _)

/-- With pairwise distinct line timestamps all created session keys are
pairwise distinct. -/
theorem createdKeys_pairwise_ne (inputs : List (Nat × String))
    (hts : (inputs.map Prod.fst).Pairwise (· ≠ ·)) :
    (createdKeys (runLines initState inputs).2).Pairwise (· ≠ ·) := by
  have hsub := createdKeys_stamps_sublist inputs initState
  have hst := hts.sublist hsub
  rw [List.pairwise_map] at hst
  exact hst.imp fun hne he => hne (congrArg SessionKey.stamp he)

/-- In a list with pairwise distinct entries, the last entry does not occur
among the earlier ones. -/
theorem getLast?_not_mem_dropLast {α : Type} (l : List α) (hp : l.Pairwise (· ≠ ·))
    (k : α) (hl : l.getLast? = some k) : k ∉ l.dropLast := by
  have hne : l ≠ [] := by
    intro he
    rw [he] at hl
    cases hl
  have hlast : l.getLast hne = k := by
    rw [List.getLast?_eq_getLast _ hne] at hl
    injection hl
  intro hmem
  rw [← List.dropLast_append_getLast hne, List.pairwise_append] at hp
  exact hp.2.2 k hmem (l.getLast hne) (List.mem_singleton_self _) hlast.symm

/-- C7 (amended): provided the wall-clock timestamps of the processed lines
are pairwise distinct, the use of session identities is monotonic: whenever
a row (DATA or LOST) is appended under key `k`, `k` is not one of the
already superseded session identities, even if a later reading's distance
repeats an earlier session's distance.  Without the distinct-timestamp
proviso the property fails, because the file name has only two decimals of
distance and one second of timestamp resolution, so two rotations in the
same second can reuse the identical identity (see the counterexample). -/
theorem C7_monotonic_identities (inputs : List (Nat × String))
    (hts : (inputs.map Prod.fst).Pairwise (· ≠ ·)) :
    logNeverReusesKey (runLines initState inputs).2 := by
  intro pre k rr post hsplit
  have hlast : (createdKeys pre).getLast? = some k := by
    have h := runLines_logged_key inputs initState [] rfl pre k rr post hsplit
    simpa using h
  have hpw := createdKeys_pairwise_ne inputs hts
  have hpre : (createdKeys pre).Pairwise (· ≠ ·) := by
    rw [hsplit, createdKeys_append] at hpw
    exact (List.pairwise_append.mp hpw).1
  exact getLast?_not_mem_dropLast _ hpre k hlast

/-- C7 (counterexample to the claim as stated): two readings in the same
second (timestamp 5) with distances 10.001 and 10.002 are strictly
increasing, so the second reading rotates the session, but both identities
round to (10.00, 5); the second row is therefore appended under an already
used identity. -/
theorem C7_counterexample :
    ¬ logNeverReusesKey (runLines initState
      [(5, "DATA,0,1,10.001,3,0,-50,7,100,0.0"),
        (5, "DATA,0,2,10.002,4,1,-50,7,100,0.1")]).2 := by
  intro h
  exact h
    [Effect.createdSession ⟨1000, 5⟩,
      Effect.logged ⟨1000, 5⟩ ⟨5, "DATA", "1", "10.001", "3", "0", "-50", "7", "100", "0.0"⟩,
      Effect.createdSession ⟨1000, 5⟩]
    ⟨1000, 5⟩
    ⟨5, "DATA", "2", "10.002", "4", "1", "-50", "7", "100", "0.1"⟩
    []
    (by with_unfolding_all decide)
    (by with_unfolding_all decide)

theorem C7_monotonic_identities_witness :
    (([((1 : Nat), "DATA,0,1,10.0,10,1,-50,7.5,100,1.0"),
        ((2 : Nat), "DATA,0,2,15.0,20,3,-50,7.5,100,3.0")].map Prod.fst).Pairwise (· ≠ ·)) ∧
    logNeverReusesKey (runLines initState
      [((1 : Nat), "DATA,0,1,10.0,10,1,-50,7.5,100,1.0"),
        ((2 : Nat), "DATA,0,2,15.0,20,3,-50,7.5,100,3.0")]).2 :=
  ⟨by decide,
    C7_monotonic_identities
      [((1 : Nat), "DATA,0,1,10.0,10,1,-50,7.5,100,1.0"),
        ((2 : Nat), "DATA,0,2,15.0,20,3,-50,7.5,100,3.0")] (by decide)⟩

/-- Running the loop from a state whose recorded distance is `ld` over
well-formed DATA readings none of which exceeds `ld` creates no session,
keeps `lastDistance` and the current file unchanged, and appends every row
to the current session `k`. -/
theorem run_le {inputs : List (Nat × String)} {ds : List ℚ}
    (hWF : List.Forall₂ (fun q d => wellFormedData q.1 q.2 d) inputs ds) :
    ∀ (st : DriverState) (ld : ℚ) (k : SessionKey),
      (∀ d ∈ ds, d ≤ ld) → st.lastDistance = some ld → st.currentLog = some k →
      createdKeys (runLines st inputs).2 = [] ∧
      allLoggedUnder (runLines st inputs).2 k ∧
      (runLines st inputs).1.lastDistance = some ld ∧
      (runLines st inputs).1.currentLog = some k := by
  induction hWF with
  | nil =>
    intro st ld k _ h1 h2
    refine ⟨rfl, ?_, h1, h2⟩
    intro p hp
    simp [runLines, loggedEntries] at hp
  | cons hqd hrest ih =>
    rename_i q d inputs' ds'
    intro st ld k hle h1 h2
    obtain ⟨r, hr, hcd⟩ := wellFormedData_elim hqd
    have hstep := @processLine_data_eq q.1 st q.2 r d hqd.1 hr hcd
    have hd_le : d ≤ ld := hle d (List.mem_cons_self _ _)
    obtain ⟨hc1, hc2, hc3, hc4⟩ := @dataStep_le q.1 st r d ld h1 hd_le
    rw [runLines_cons_eff, runLines_cons_state, hstep]
    have hih := ih (dataStep q.1 st r d).1 ld k
      (fun x hx => hle x (List.mem_cons_of_mem _ hx)) (hc2.trans h1) (hc1.trans h2)
    obtain ⟨hi1, hi2, hi3, hi4⟩ := hih
    refine ⟨?_, ?_, hi3, hi4⟩
    · rw [createdKeys_append, hc3, hi1]
      rfl
    · intro p hp
      rw [loggedEntries_append] at hp
      rcases List.mem_append.mp hp with hp1 | hp2
      · have hcur := hc4 p hp1
        rw [h2] at hcur
        injection hcur with hcur
        exact hcur.symm
      · exact hi2 p hp2

/-- C2: for a nonempty sequence of well-formed DATA readings in which every
distance after the first is at most the recorded distance of the first
reading (equality allowed), exactly one session identity is created -- by
the first reading, keyed on its distance and timestamp -- and every
persisted row is appended to that session. -/
theorem C2_nonincreasing_single_session
    (t₁ : Nat) (l₁ : String) (tl : List (Nat × String)) (d₁ : ℚ) (dtl : List ℚ)
    (hWF : List.Forall₂ (fun q d => wellFormedData q.1 q.2 d) ((t₁, l₁) :: tl) (d₁ :: dtl))
    (hle : ∀ d ∈ dtl, d ≤ d₁) :
    createdKeys (runLines initState ((t₁, l₁) :: tl)).2 = [⟨round2 d₁, t₁⟩] ∧
    allLoggedUnder (runLines initState ((t₁, l₁) :: tl)).2 ⟨round2 d₁, t₁⟩ := by
  cases hWF with
  | cons h1 hrest =>
    obtain ⟨r, hr, hcd⟩ := wellFormedData_elim h1
    have hstep := @processLine_data_eq t₁ initState l₁ r d₁ h1.1 hr hcd
    rw [runLines_cons_eff, hstep, dataStep_first rfl]
    obtain ⟨hi1, hi2, hi3, hi4⟩ := run_le hrest
      ⟨some ⟨round2 d₁, t₁⟩, some d₁, some (parseLostCount r.lost)⟩
      d₁ ⟨round2 d₁, t₁⟩ hle rfl rfl
    constructor
    · rw [createdKeys_append, hi1]
      rfl
    · intro p hp
      rw [loggedEntries_append] at hp
      rcases List.mem_append.mp hp with hp1 | hp2
      · simp [loggedEntries] at hp1
        rw [hp1]
      · exact hi2 p hp2

theorem C2_nonincreasing_single_session_witness :
    (∀ d ∈ [(8 : ℚ), 8, 5], d ≤ (10 : ℚ)) ∧
    createdKeys (runLines initState
      [((1 : Nat), "DATA,0,1,10.0,10,1,-50,7.5,100,1.0"),
        ((2 : Nat), "DATA,0,2,8.0,20,3,-50,7.5,100,3.0"),
        ((3 : Nat), "DATA,0,3,8.0,30,4,-50,7.5,100,4.0"),
        ((4 : Nat), "DATA,0,4,5.0,40,6,-50,7.5,100,6.0")]).2 = [⟨round2 10, 1⟩] ∧
    allLoggedUnder (runLines initState
      [((1 : Nat), "DATA,0,1,10.0,10,1,-50,7.5,100,1.0"),
        ((2 : Nat), "DATA,0,2,8.0,20,3,-50,7.5,100,3.0"),
        ((3 : Nat), "DATA,0,3,8.0,30,4,-50,7.5,100,4.0"),
        ((4 : Nat), "DATA,0,4,5.0,40,6,-50,7.5,100,6.0")]).2 ⟨round2 10, 1⟩ := by
  have hWF : List.Forall₂ (fun (q : Nat × String) (d : ℚ) => wellFormedData q.1 q.2 d)
      [((1 : Nat), "DATA,0,1,10.0,10,1,-50,7.5,100,1.0"),
        ((2 : Nat), "DATA,0,2,8.0,20,3,-50,7.5,100,3.0"),
        ((3 : Nat), "DATA,0,3,8.0,30,4,-50,7.5,100,4.0"),
        ((4 : Nat), "DATA,0,4,5.0,40,6,-50,7.5,100,6.0")] [10, 8, 8, 5] :=
    List.Forall₂.cons ⟨by decide, by with_unfolding_all decide⟩
      (List.Forall₂.cons ⟨by decide, by with_unfolding_all decide⟩
        (List.Forall₂.cons ⟨by decide, by with_unfolding_all decide⟩
          (List.Forall₂.cons ⟨by decide, by with_unfolding_all decide⟩ List.Forall₂.nil)))
  have hle : ∀ d ∈ [(8 : ℚ), 8, 5], d ≤ (10 : ℚ) := by
    intro d hd
    fin_cases hd <;> norm_num
  obtain ⟨hA, hB⟩ := C2_nonincreasing_single_session 1 "DATA,0,1,10.0,10,1,-50,7.5,100,1.0"
    [((2 : Nat), "DATA,0,2,8.0,20,3,-50,7.5,100,3.0"),
      ((3 : Nat), "DATA,0,3,8.0,30,4,-50,7.5,100,4.0"),
      ((4 : Nat), "DATA,0,4,5.0,40,6,-50,7.5,100,6.0")] 10 [8, 8, 5] hWF hle
  exact ⟨hle, hA, hB⟩

/-- Running the loop over well-formed DATA readings with strictly
increasing parsed distances, starting from a state whose recorded distance
(if any) is below the first distance: every reading creates a session keyed
on its rounded distance and its timestamp, and `lastDistance` ends at the
last distance. -/
theorem run_inc {inputs : List (Nat × String)} {ds : List ℚ}
    (hWF : List.Forall₂ (fun q d => wellFormedData q.1 q.2 d) inputs ds) :
    ∀ st : DriverState, ds.Chain' (· < ·) →
      (∀ d₀ ld, ds.head? = some d₀ → st.lastDistance = some ld → ld < d₀) →
      createdKeys (runLines st inputs).2 =
        (inputs.zip ds).map (fun q => (⟨round2 q.2, q.1.1⟩ : SessionKey)) ∧
      (runLines st inputs).1.lastDistance =
        ((ds.getLast?).or st.lastDistance) := by
  induction hWF with
  | nil =>
    intro st _ _
    exact ⟨rfl, rfl⟩
  | cons hqd hrest ih =>
    rename_i q d inputs' ds'
    intro st hchain hstate
    obtain ⟨r, hr, hcd⟩ := wellFormedData_elim hqd
    have hstep := @processLine_data_eq q.1 st q.2 r d hqd.1 hr hcd
    rw [runLines_cons_eff, runLines_cons_state, hstep]
    have hafter : (dataStep q.1 st r d).1.lastDistance = some d ∧
        createdKeys (dataStep q.1 st r d).2 = [⟨round2 d, q.1⟩] := by
      cases hld : st.lastDistance with
      | none =>
        rw [dataStep_first hld]
        exact ⟨rfl, by simp [createdKeys]⟩
      | some ld =>
        have hlt : ld < d := hstate d ld rfl hld
        obtain ⟨-, h2, h3⟩ := @dataStep_up q.1 st r d ld hld hlt
        exact ⟨h2, h3⟩
    have hchain' : ds'.Chain' (· < ·) := by
      cases ds' with
      | nil => simp
      | cons d₂ ds'' => exact (List.chain'_cons.mp hchain).2
    have hstate' : ∀ d₀ ld, ds'.head? = some d₀ →
        (dataStep q.1 st r d).1.lastDistance = some ld → ld < d₀ := by
      intro d₀ ld hh hl
      rw [hafter.1] at hl
      injection hl with hl
      subst hl
      cases ds' with
      | nil => cases hh
      | cons d₂ ds'' =>
        injection hh with hh
        subst hh
        exact (List.chain'_cons.mp hchain).1
    obtain ⟨hi1, hi2⟩ := ih (dataStep q.1 st r d).1 hchain' hstate'
    constructor
    · rw [createdKeys_append, hafter.2, hi1]
      rfl
    · rw [hi2]
      cases ds' with
      | nil =>
        rw [hafter.1]
        rfl
      | cons d₂ ds'' =>
        rw [List.getLast?_cons_cons]
        cases hgl : (d₂ :: ds'').getLast? with
        | none =>
          exact absurd hgl (by simp)
        | some x => rfl

/-- C1 (amended): for every sequence of well-formed DATA readings whose
parsed distances are strictly increasing, each reading opens a new session
identity keyed on its distance (rounded to two decimals, as in the file
name) and its wall-clock timestamp, and `lastDistance` is updated to the
reading's distance (ending at the last one); the created identities are
pairwise distinct provided the readings carry pairwise distinct wall-clock
timestamps.  Without that proviso distinctness fails: the file name keeps
only two decimals of the distance and whole seconds of the timestamp, so
two rotations within one second whose distances agree after rounding yield
the identical identity (see the counterexample). -/
theorem C1_strictly_increasing_sessions (inputs : List (Nat × String)) (ds : List ℚ)
    (hWF : List.Forall₂ (fun q d => wellFormedData q.1 q.2 d) inputs ds)
    (hinc : ds.Chain' (· < ·))
    (hts : (inputs.map Prod.fst).Pairwise (· ≠ ·)) :
    createdKeys (runLines initState inputs).2 =
      (inputs.zip ds).map (fun q => (⟨round2 q.2, q.1.1⟩ : SessionKey)) ∧
    (createdKeys (runLines initState inputs).2).Pairwise (· ≠ ·) ∧
    (runLines initState inputs).1.lastDistance = ds.getLast? := by
  obtain ⟨h1, h2⟩ := run_inc hWF initState hinc (by intro d₀ ld _ hl; cases hl)
  refine ⟨h1, createdKeys_pairwise_ne inputs hts, ?_⟩
  rw [h2]
  cases ds.getLast? with
  | none => rfl
  | some x => rfl

/-- C1 (counterexample to the claim as stated): the two well-formed
readings below have strictly increasing parsed distances 0.001 < 0.002 and
arrive within the same second (timestamp 5); both session identities round
to (0.00, 5), so the identity opened by the second reading is not distinct
from the previously created one. -/
theorem C1_counterexample :
    List.Forall₂ (fun (q : Nat × String) (d : ℚ) => wellFormedData q.1 q.2 d)
      [((5 : Nat), "DATA,0,1,0.001,3,0,-50,7,100,0.0"),
        ((5 : Nat), "DATA,0,2,0.002,4,1,-50,7,100,0.1")]
      [1 / 1000, 2 / 1000] ∧
    ([(1 : ℚ) / 1000, 2 / 1000]).Chain' (· < ·) ∧
    createdKeys (runLines initState
      [((5 : Nat), "DATA,0,1,0.001,3,0,-50,7,100,0.0"),
        ((5 : Nat), "DATA,0,2,0.002,4,1,-50,7,100,0.1")]).2 = [⟨0, 5⟩, ⟨0, 5⟩] ∧
    ¬ (createdKeys (runLines initState
      [((5 : Nat), "DATA,0,1,0.001,3,0,-50,7,100,0.0"),
        ((5 : Nat), "DATA,0,2,0.002,4,1,-50,7,100,0.1")]).2).Pairwise (· ≠ ·) := by
  refine ⟨?_, ?_, ?_, ?_⟩
  · exact List.Forall₂.cons ⟨by decide, by with_unfolding_all decide⟩
      (List.Forall₂.cons ⟨by decide, by with_unfolding_all decide⟩ List.Forall₂.nil)
  · rw [List.chain'_cons]
    constructor
    · norm_num
    · simp
  · with_unfolding_all decide
  · rw [show createdKeys (runLines initState
      [((5 : Nat), "DATA,0,1,0.001,3,0,-50,7,100,0.0"),
        ((5 : Nat), "DATA,0,2,0.002,4,1,-50,7,100,0.1")]).2 = [⟨0, 5⟩, ⟨0, 5⟩]
      from by with_unfolding_all decide]
    intro hp
    exact (List.pairwise_cons.mp hp).1 ⟨0, 5⟩ (List.mem_singleton_self _) rfl

theorem C1_strictly_increasing_sessions_witness :
    ([(10 : ℚ), 15]).Chain' (· < ·) ∧
    (([((1 : Nat), "DATA,0,1,10.0,10,1,-50,7.5,100,1.0"),
        ((2 : Nat), "DATA,0,2,15.0,20,3,-50,7.5,100,3.0")].map Prod.fst).Pairwise (· ≠ ·)) ∧
    (createdKeys (runLines initState
        [((1 : Nat), "DATA,0,1,10.0,10,1,-50,7.5,100,1.0"),
          ((2 : Nat), "DATA,0,2,15.0,20,3,-50,7.5,100,3.0")]).2 =
      ([((1 : Nat), "DATA,0,1,10.0,10,1,-50,7.5,100,1.0"),
          ((2 : Nat), "DATA,0,2,15.0,20,3,-50,7.5,100,3.0")].zip [(10 : ℚ), 15]).map
        (fun q => (⟨round2 q.2, q.1.1⟩ : SessionKey)) ∧
      (createdKeys (runLines initState
        [((1 : Nat), "DATA,0,1,10.0,10,1,-50,7.5,100,1.0"),
          ((2 : Nat), "DATA,0,2,15.0,20,3,-50,7.5,100,3.0")]).2).Pairwise (· ≠ ·) ∧
      (runLines initState
        [((1 : Nat), "DATA,0,1,10.0,10,1,-50,7.5,100,1.0"),
          ((2 : Nat), "DATA,0,2,15.0,20,3,-50,7.5,100,3.0")]).1.lastDistance =
        ([(10 : ℚ), 15]).getLast?) := by
  have hWF : List.Forall₂ (fun (q : Nat × String) (d : ℚ) => wellFormedData q.1 q.2 d)
      [((1 : Nat), "DATA,0,1,10.0,10,1,-50,7.5,100,1.0"),
        ((2 : Nat), "DATA,0,2,15.0,20,3,-50,7.5,100,3.0")] [10, 15] :=
    List.Forall₂.cons ⟨by decide, by with_unfolding_all decide⟩
      (List.Forall₂.cons ⟨by decide, by with_unfolding_all decide⟩ List.Forall₂.nil)
  have hinc : ([(10 : ℚ), 15]).Chain' (· < ·) := by
    rw [List.chain'_cons]
    constructor
    · norm_num
    · simp
  refine ⟨hinc, by decide, ?_⟩
  exact C1_strictly_increasing_sessions
    [((1 : Nat), "DATA,0,1,10.0,10,1,-50,7.5,100,1.0"),
      ((2 : Nat), "DATA,0,2,15.0,20,3,-50,7.5,100,3.0")] [10, 15] hWF hinc (by decide)
